import Mathlib

/-!
# Verification of the dataset generators of `src/dataset.ts`

A shallow embedding of the dataset-generation module.  JavaScript numbers are
modelled as exact rationals (`ℚ`) where the computation is rational (random
draws, loop bounds, polar-rejection acceptance, ratios and quotas) and as real
numbers (`ℝ`) where transcendental functions (`sin`, `cos`, `sqrt`, `log`, `π`)
occur.  The ambient random source `Math.random()` — a stream of values in
`[0, 1)` — is modelled as an explicit stream `rand : ℕ → ℚ`, consumed at
explicitly threaded positions.  The unbounded rejection loop in `normalRandom`
is modelled with fuel, returning `none` when the fuel is exhausted (the
JavaScript loop would still be running).
-/

namespace Dataset

/-- A two dimensional point, as in `type Point` of the source. -/
structure Point where
  x : ℝ
  y : ℝ

/-- A two dimensional example: x and y coordinates with the label
(`type Example2D` of the source). -/
structure Example2D where
  x : ℝ
  y : ℝ
  label : ℝ

/-- Number of iterations of a JavaScript loop `for (let i = 0; i < b; i++)`
whose bound `b` is an arbitrary number: the number of naturals `i` with
`(i : ℚ) < b`, which is `⌈b⌉` clamped to `ℕ`.  (The source's loop bounds such
as `numSamples / 2` use real division, so this is a ceiling, not a floor.) -/
def jsLoopCount (b : ℚ) : ℕ := (Int.ceil b).toNat

theorem lt_jsLoopCount (i : ℕ) (b : ℚ) : i < jsLoopCount b ↔ (i : ℚ) < b := by
  rw [jsLoopCount, Int.lt_toNat, Int.lt_ceil]
  norm_cast

/-- The function `randUniform(a, b)` of the source: `Math.random() * (b - a) + a`, with the
draw `r` made explicit.  Coordinates live in `ℝ`. -/
def randUniform (r : ℚ) (a b : ℝ) : ℝ := r * (b - a) + a

/-- The function `dist(a, b)` of the source: the euclidean distance between two points. -/
noncomputable def dist (a b : Point) : ℝ :=
  Real.sqrt ((a.x - b.x) * (a.x - b.x) + (a.y - b.y) * (a.y - b.y))

/-- The affine map of `d3.scale.linear().domain([d0, d1]).range([r0, r1])`
without clamping: linear interpolation of the range along the domain. -/
noncomputable def linearScale (d0 d1 r0 r1 v : ℝ) : ℝ :=
  r0 + (v - d0) * (r1 - r0) / (d1 - d0)

/-- The same scale with `.clamp(true)` (for a domain listed in increasing
order, `d0 < d1`): the input is clamped into `[d0, d1]` before interpolating. -/
noncomputable def linearScaleClamped (d0 d1 r0 r1 v : ℝ) : ℝ :=
  linearScale d0 d1 r0 r1 (min (max v d0) d1)

/-! ## The polar-rejection (Marsaglia) sampler `normalRandom` -/

/-- The rejection loop of `normalRandom`: draw `v1 = 2*rand - 1`,
`v2 = 2*rand - 1`, set `s = v1*v1 + v2*v2`, and repeat while `s > 1`
(a do-while, so every pair with `s ≤ 1` — including `s = 0` — is accepted).
Returns the accepted `(v1, s)` together with the next stream position, or
`none` if the fuel runs out before a pair is accepted. -/
def polarAccept (rand : ℕ → ℚ) : ℕ → ℕ → Option (ℚ × ℚ × ℕ)
  | _, 0 => none
  | k, fuel + 1 =>
    let v1 : ℚ := 2 * rand k - 1
    let v2 : ℚ := 2 * rand (k + 1) - 1
    let s : ℚ := v1 * v1 + v2 * v2
    if s > 1 then polarAccept rand (k + 2) fuel else some (v1, s, k + 2)

/-- The function `normalRandom(mean, variance)` of the source: transform the accepted pair
by `result = sqrt(-2 * log(s) / s) * v1` and return
`mean + sqrt(variance) * result` and the next stream position. -/
noncomputable def normalRandom (rand : ℕ → ℚ) (mean variance : ℝ) (k fuel : ℕ) :
    Option (ℝ × ℕ) :=
  (polarAccept rand k fuel).map fun r =>
    (mean + Real.sqrt variance * (Real.sqrt (-2 * Real.log (r.2.1 : ℝ) / (r.2.1 : ℝ)) * (r.1 : ℝ)),
      r.2.2)

/-! ## Fisher–Yates `shuffle` -/

/-- One swap step of `shuffle`: `temp = a[i]; a[i] = a[j]; a[j] = temp`.
For in-bounds indices this swaps positions `i` and `j`; the source only ever
uses in-bounds indices (`Math.random()` lies in `[0, 1)`), so the
out-of-bounds case — unreachable here — is modelled as a no-op. -/
def swapAt (l : List α) (i j : ℕ) : List α :=
  if h : i < l.length ∧ j < l.length then
    (l.set i (l.get ⟨j, h.2⟩)).set j (l.get ⟨i, h.1⟩)
  else l

/-- The loop of `shuffle`: while `counter > 0`, pick
`index = Math.floor(Math.random() * counter)`, decrement `counter`, and swap
the elements at `counter` and `index`.  `k` is the stream position. -/
def shuffleAux (rand : ℕ → ℚ) : List α → ℕ → ℕ → List α
  | l, _, 0 => l
  | l, k, c + 1 =>
    shuffleAux rand (swapAt l c (Int.floor (rand k * (c + 1 : ℚ))).toNat) (k + 1) c

/-- The function `shuffle(array)` of the source: Fisher–Yates over the whole array. -/
def shuffle (rand : ℕ → ℚ) (l : List α) : List α :=
  shuffleAux rand l 0 l.length

/-! ## `classifyTwoGaussData` -/

/-- The scale `varianceScale` of `classifyTwoGaussData`:
`d3.scale.linear().domain([0, .5]).range([0.5, 4])`, unclamped, over the
rational noise level. -/
def varianceScale (noise : ℚ) : ℚ := 1 / 2 + (noise - 0) * (4 - 1 / 2) / (1 / 2 - 0)

/-- The `genGauss(cx, cy, label)` loop of `classifyTwoGaussData`: `c` points,
each from two `normalRandom` draws (x then y), threading the stream position
and propagating fuel exhaustion. -/
noncomputable def genGauss (rand : ℕ → ℚ) (variance cx cy lab : ℝ) (fuel : ℕ) :
    ℕ → ℕ → Option (List Example2D × ℕ)
  | 0, k => some ([], k)
  | c + 1, k =>
    (normalRandom rand cx variance k fuel).bind fun rx =>
      (normalRandom rand cy variance rx.2 fuel).bind fun ry =>
        (genGauss rand variance cx cy lab fuel c ry.2).map fun r =>
          (⟨rx.1, ry.1, lab⟩ :: r.1, r.2)

/-- The generator `classifyTwoGaussData(numSamples, noise)`: a positive blob at `(2, 2)` and
a negative blob at `(-2, -2)`, each of `numSamples / 2` points (a real-valued
loop bound).  `none` when the fuel is not enough for the rejection loops. -/
noncomputable def classifyTwoGaussData (numSamples : ℤ) (noise : ℚ)
    (rand : ℕ → ℚ) (fuel : ℕ) : Option (List Example2D) :=
  let variance : ℝ := (varianceScale noise : ℚ)
  let c := jsLoopCount ((numSamples : ℚ) / 2)
  (genGauss rand variance 2 2 1 fuel c 0).bind fun r1 =>
    (genGauss rand variance (-2) (-2) (-1) fuel c r1.2).map fun r2 => r1.1 ++ r2.1

/-! ## `regressPlane` -/

/-- The generator `regressPlane(numSamples, noise)`: points uniform in `[-6, 6]²`, label the
unclamped linear map of `(x + noiseX) + (y + noiseY)` from `[-10, 10]` to
`[-1, 1]`.  Each iteration consumes four draws. -/
noncomputable def regressPlane (numSamples : ℤ) (noise : ℚ) (rand : ℕ → ℚ) :
    List Example2D :=
  (List.range (jsLoopCount (numSamples : ℚ))).map fun i =>
    let radius : ℝ := 6
    let x := randUniform (rand (4 * i)) (-radius) radius
    let y := randUniform (rand (4 * i + 1)) (-radius) radius
    let noiseX := randUniform (rand (4 * i + 2)) (-radius) radius * (noise : ℝ)
    let noiseY := randUniform (rand (4 * i + 3)) (-radius) radius * (noise : ℝ)
    ⟨x, y, linearScale (-10) 10 (-1) 1 (x + noiseX + (y + noiseY))⟩

/-! ## `regressGaussian` -/

/-- The six fixed Gaussian centers `[cx, cy, sign]` of `regressGaussian`. -/
noncomputable def gaussians : List (ℝ × ℝ × ℝ) :=
  [(-4, 2.5, 1), (0, 2.5, -1), (4, 2.5, 1), (-4, -2.5, -1), (0, -2.5, 1), (4, -2.5, -1)]

/-- One center's term in `getLabel` of `regressGaussian`:
`sign * labelScale(dist((x, y), (cx, cy)))`, where `labelScale` is the clamped
linear scale with domain `[0, 2]` and range `[1, 0]`. -/
noncomputable def gaussContribution (x y : ℝ) (g : ℝ × ℝ × ℝ) : ℝ :=
  g.2.2 * linearScaleClamped 0 2 1 0 (dist ⟨x, y⟩ ⟨g.1, g.2.1⟩)

/-- All six centers' terms at `(x, y)`, in the order of `gaussians`. -/
noncomputable def gaussContribs (x y : ℝ) : List ℝ :=
  gaussians.map (gaussContribution x y)

/-- The function `getLabel(x, y)` of `regressGaussian`: starting from `label = 0`, replace
the label by a center's term whenever that term is strictly larger in absolute
value (the `forEach` over `gaussians`). -/
noncomputable def getLabelGauss (x y : ℝ) : ℝ :=
  (gaussContribs x y).foldl (fun label newLabel =>
    if |newLabel| > |label| then newLabel else label) 0

/-- The generator `regressGaussian(numSamples, noise)`: points uniform in `[-6, 6]²`, label
`getLabel(x + noiseX, y + noiseY)`.  Each iteration consumes four draws. -/
noncomputable def regressGaussian (numSamples : ℤ) (noise : ℚ) (rand : ℕ → ℚ) :
    List Example2D :=
  (List.range (jsLoopCount (numSamples : ℚ))).map fun i =>
    let radius : ℝ := 6
    let x := randUniform (rand (4 * i)) (-radius) radius
    let y := randUniform (rand (4 * i + 1)) (-radius) radius
    let noiseX := randUniform (rand (4 * i + 2)) (-radius) radius * (noise : ℝ)
    let noiseY := randUniform (rand (4 * i + 3)) (-radius) radius * (noise : ℝ)
    ⟨x, y, getLabelGauss (x + noiseX) (y + noiseY)⟩

/-! ## `classifySpiralData` -/

/-- The `genSpiral(deltaT, label)` loop: `n = numSamples / 2` (real division)
points with `r = i / n * 5`, `t = 1.75 * i / n * 2π + deltaT`, coordinates
`r sin t`, `r cos t` plus `randUniform(-1, 1) * noise`.  `k0` is the stream
offset of the arm; each iteration consumes two draws. -/
noncomputable def genSpiral (n : ℚ) (noise : ℚ) (rand : ℕ → ℚ) (k0 : ℕ)
    (deltaT lab : ℝ) : List Example2D :=
  (List.range (jsLoopCount n)).map fun (i : ℕ) =>
    let r : ℝ := (i : ℝ) / (n : ℝ) * 5
    let t : ℝ := 1.75 * (i : ℝ) / (n : ℝ) * 2 * Real.pi + deltaT
    let x := r * Real.sin t + randUniform (rand (k0 + 2 * i)) (-1) 1 * (noise : ℝ)
    let y := r * Real.cos t + randUniform (rand (k0 + 2 * i + 1)) (-1) 1 * (noise : ℝ)
    ⟨x, y, lab⟩

/-- The generator `classifySpiralData(numSamples, noise)`: the `deltaT = 0` arm with label
`+1` followed by the `deltaT = π` arm with label `-1`. -/
noncomputable def classifySpiralData (numSamples : ℤ) (noise : ℚ)
    (rand : ℕ → ℚ) : List Example2D :=
  let n : ℚ := (numSamples : ℚ) / 2
  genSpiral n noise rand 0 0 1 ++
    genSpiral n noise rand (2 * jsLoopCount n) Real.pi (-1)

/-! ## `classifyCircleData` -/

/-- The function `getCircleLabel(p, center)`: `+1` when `dist(p, center) < radius * 0.5`,
else `-1`. -/
noncomputable def getCircleLabel (radius : ℝ) (p center : Point) : ℝ :=
  if dist p center < radius * 0.5 then 1 else -1

/-- One of the two loops of `classifyCircleData`: `c` points with radius
`randUniform(rlo, rhi)` and angle `randUniform(0, 2π)`, noise scaled by the
outer radius, and the label recomputed from the noisy position.  Each
iteration consumes four draws starting at offset `k0`. -/
noncomputable def circlePoints (radius : ℝ) (noise : ℚ) (rand : ℕ → ℚ)
    (k0 c : ℕ) (rlo rhi : ℝ) : List Example2D :=
  (List.range c).map fun i =>
    let r := randUniform (rand (k0 + 4 * i)) rlo rhi
    let angle := randUniform (rand (k0 + 4 * i + 1)) 0 (2 * Real.pi)
    let x := r * Real.sin angle
    let y := r * Real.cos angle
    let noiseX := randUniform (rand (k0 + 4 * i + 2)) (-radius) radius * (noise : ℝ)
    let noiseY := randUniform (rand (k0 + 4 * i + 3)) (-radius) radius * (noise : ℝ)
    ⟨x, y, getCircleLabel radius ⟨x + noiseX, y + noiseY⟩ ⟨0, 0⟩⟩

/-- The generator `classifyCircleData(numSamples, noise)` with `radius = 5`: `numSamples / 2`
positive points generated inside radius `0.5 * radius` then `numSamples / 2`
negative-region points in the annulus `[0.7 * radius, radius]`. -/
noncomputable def classifyCircleData (numSamples : ℤ) (noise : ℚ)
    (rand : ℕ → ℚ) : List Example2D :=
  let radius : ℝ := 5
  let c := jsLoopCount ((numSamples : ℚ) / 2)
  circlePoints radius noise rand 0 c 0 (radius * 0.5) ++
    circlePoints radius noise rand (4 * c) c (radius * 0.7) radius

/-! ## `classifyXORData` -/

/-- The function `getXORLabel(p)`: `+1` when `p.x * p.y ≥ 0`, else `-1`. -/
noncomputable def getXORLabel (p : Point) : ℝ := if p.x * p.y ≥ 0 then 1 else -1

/-- The generator `classifyXORData(numSamples, noise)`: coordinates uniform in `[-5, 5]`,
each pushed away from zero by a padding of `0.3`, noise uniform in `[-5, 5]`
scaled by `noise`, label the sign of the product at the noisy position.  Each
iteration consumes four draws. -/
noncomputable def classifyXORData (numSamples : ℤ) (noise : ℚ)
    (rand : ℕ → ℚ) : List Example2D :=
  (List.range (jsLoopCount (numSamples : ℚ))).map fun i =>
    let padding : ℝ := 0.3
    let x0 := randUniform (rand (4 * i)) (-5) 5
    let x := x0 + (if x0 > 0 then padding else -padding)
    let y0 := randUniform (rand (4 * i + 1)) (-5) 5
    let y := y0 + (if y0 > 0 then padding else -padding)
    let noiseX := randUniform (rand (4 * i + 2)) (-5) 5 * (noise : ℝ)
    let noiseY := randUniform (rand (4 * i + 3)) (-5) 5 * (noise : ℝ)
    ⟨x, y, getXORLabel ⟨x + noiseX, y + noiseY⟩⟩

/-! ## The line-based generator and the two glyph datasets -/

/-- The record `interface PropertyForLines` of the source: a label, a relative weight
(`ratio`, kept rational so quotas stay exactly computable) and the segment
endpoints. -/
structure PropertyForLines where
  label : ℝ
  ratio : ℚ
  p0 : Point
  p1 : Point

/-- The function `randOnLine(a, b)` of the source, with the draw `t` explicit:
`a + (b - a) * t` coordinatewise. -/
def randOnLine (t : ℚ) (a b : Point) : Point :=
  ⟨a.x + (b.x - a.x) * t, a.y + (b.y - a.y) * t⟩

/-- The inner loop of `makeClassifyDataWithLines` for one descriptor: `num`
points on the segment, each perturbed by `randUniform(-randRadius, randRadius)
* noise` per coordinate and labelled with the descriptor's label.  Each point
consumes three draws starting at offset `k0`. -/
noncomputable def linePoints (noise : ℚ) (randRadius : ℝ) (rand : ℕ → ℚ)
    (p : PropertyForLines) (k0 num : ℕ) : List Example2D :=
  (List.range num).map fun (j : ℕ) =>
    let q := randOnLine (rand (k0 + 3 * j)) p.p0 p.p1
    let noiseX := randUniform (rand (k0 + 3 * j + 1)) (-randRadius) randRadius * (noise : ℝ)
    let noiseY := randUniform (rand (k0 + 3 * j + 2)) (-randRadius) randRadius * (noise : ℝ)
    ⟨q.x + noiseX, q.y + noiseY, p.label⟩

/-- The per-descriptor quota of `makeClassifyDataWithLines`:
`Math.floor(prop.ratio / sumOfRatio * numSamples)`; a negative floor (possible
only for negative inputs) yields zero loop iterations. -/
def lineQuota (total : ℚ) (numSamples : ℤ) (p : PropertyForLines) : ℕ :=
  (Int.floor (p.ratio / total * (numSamples : ℚ))).toNat

/-- The outer loop of `makeClassifyDataWithLines`: the descriptors in list
order, threading the stream position. -/
noncomputable def makeLinesAux (noise : ℚ) (randRadius : ℝ) (rand : ℕ → ℚ)
    (total : ℚ) (numSamples : ℤ) : List PropertyForLines → ℕ → List Example2D
  | [], _ => []
  | p :: rest, k =>
    let num := lineQuota total numSamples p
    linePoints noise randRadius rand p k num ++
      makeLinesAux noise randRadius rand total numSamples rest (k + 3 * num)

/-- The total weight `sumOfRatio`: `props.reduce((sum, x) => sum + x.ratio, 0)`. -/
def sumOfRatio (props : List PropertyForLines) : ℚ :=
  props.foldl (fun sum x => sum + x.ratio) 0

/-- The generator `makeClassifyDataWithLines(numSamples, noise, props, randRadius)` (the
source defaults `randRadius` to 3; callers here pass it explicitly). -/
noncomputable def makeClassifyDataWithLines (numSamples : ℤ) (noise : ℚ)
    (props : List PropertyForLines) (randRadius : ℝ) (rand : ℕ → ℚ) :
    List Example2D :=
  makeLinesAux noise randRadius rand (sumOfRatio props) numSamples props 0

/-- The descriptor list of `classifyOxtuData` (the characters o and xtu). -/
noncomputable def oxtuProps : List PropertyForLines :=
  [⟨1, 1, ⟨-4.0, 3.0⟩, ⟨1.5, 3.0⟩⟩,
   ⟨1, 1, ⟨-0.8, 4.5⟩, ⟨-0.8, -2.0⟩⟩,
   ⟨1, 0.08, ⟨-0.9, -1.6⟩, ⟨-2.0, -1.0⟩⟩,
   ⟨-1, 0.8, ⟨-1.6, 2.0⟩, ⟨-4.0, -1.0⟩⟩,
   ⟨-1, 0.2, ⟨1.7, -1.5⟩, ⟨2.2, -2.5⟩⟩,
   ⟨-1, 0.2, ⟨3.0, -1.0⟩, ⟨3.5, -2.0⟩⟩,
   ⟨1, 0.2, ⟨5.0, -1.0⟩, ⟨4.7, -3.0⟩⟩,
   ⟨1, 0.3, ⟨4.7, -3.0⟩, ⟨2.0, -4.6⟩⟩]

/-- The generator `classifyOxtuData(numSamples, noise)`. -/
noncomputable def classifyOxtuData (numSamples : ℤ) (noise : ℚ)
    (rand : ℕ → ℚ) : List Example2D :=
  makeClassifyDataWithLines numSamples noise oxtuProps 3 rand

/-- The descriptor list of `classifyJavaData` (the characters di, xya, ba). -/
noncomputable def javaProps : List PropertyForLines :=
  [⟨1, 1, ⟨-4.0, 0.5⟩, ⟨-3.0, 0.0⟩⟩,
   ⟨-1, 1, ⟨-4.0, 2.0⟩, ⟨-3.0, 1.0⟩⟩,
   ⟨-1, 1.5, ⟨-1.0, 1.0⟩, ⟨-2.0, -1.0⟩⟩,
   ⟨-1, 1.5, ⟨-4.0, -1.7⟩, ⟨-2.0, -1.0⟩⟩,
   ⟨1, 0.5, ⟨-2.0, 3.0⟩, ⟨-2.0, 2.0⟩⟩,
   ⟨-1, 0.5, ⟨-1.0, 3.0⟩, ⟨-1.0, 2.0⟩⟩,
   ⟨-1, 1, ⟨-1.5, -3.5⟩, ⟨0.5, -2.5⟩⟩,
   ⟨-1, 0.5, ⟨-0.0, -3.5⟩, ⟨0.5, -2.5⟩⟩,
   ⟨1, 0.8, ⟨-1.2, -2.0⟩, ⟨-0.4, -4.5⟩⟩,
   ⟨1, 0.5, ⟨2.0, 1.0⟩, ⟨2.0, 0.0⟩⟩,
   ⟨1, 1, ⟨1.0, -2.0⟩, ⟨2.0, 0.0⟩⟩,
   ⟨-1, 1.5, ⟨3.5, 1.0⟩, ⟨4.5, -2.0⟩⟩,
   ⟨1, 0.5, ⟨3.0, 3.0⟩, ⟨3.0, 2.0⟩⟩,
   ⟨-1, 0.5, ⟨4.0, 3.0⟩, ⟨4.0, 2.0⟩⟩]

/-- The generator `classifyJavaData(numSamples, noise)`. -/
noncomputable def classifyJavaData (numSamples : ℤ) (noise : ℚ)
    (rand : ℕ → ℚ) : List Example2D :=
  makeClassifyDataWithLines numSamples noise javaProps 3 rand

/-! ## Length lemmas -/

theorem genSpiral_length (n noise : ℚ) (rand : ℕ → ℚ) (k0 : ℕ)
    (deltaT lab : ℝ) : (genSpiral n noise rand k0 deltaT lab).length = jsLoopCount n := by
  simp [genSpiral]

theorem classifySpiralData_length (n : ℤ) (noise : ℚ) (rand : ℕ → ℚ) :
    (classifySpiralData n noise rand).length = 2 * jsLoopCount ((n : ℚ) / 2) := by
  simp [classifySpiralData, genSpiral_length]
  ring

theorem circlePoints_length (radius : ℝ) (noise : ℚ) (rand : ℕ → ℚ)
    (k0 c : ℕ) (rlo rhi : ℝ) :
    (circlePoints radius noise rand k0 c rlo rhi).length = c := by
  simp [circlePoints]

theorem classifyCircleData_length (n : ℤ) (noise : ℚ) (rand : ℕ → ℚ) :
    (classifyCircleData n noise rand).length = 2 * jsLoopCount ((n : ℚ) / 2) := by
  simp [classifyCircleData, circlePoints_length]
  ring

theorem genGauss_length (rand : ℕ → ℚ) (variance cx cy lab : ℝ) (fuel : ℕ) :
    ∀ (c k : ℕ) (l : List Example2D) (k' : ℕ),
      genGauss rand variance cx cy lab fuel c k = some (l, k') → l.length = c := by
  intro c
  induction c with
  | zero =>
    intro k l k' h
    simp only [genGauss, Option.some.injEq, Prod.mk.injEq] at h
    simp [← h.1]
  | succ c ih =>
    intro k l k' h
    simp only [genGauss, Option.bind_eq_some, Option.map_eq_some'] at h
    obtain ⟨rx, hx, ry, hy, r, hr, hfr⟩ := h
    obtain ⟨h1, -⟩ := Prod.mk.injEq .. ▸ hfr
    rw [← h1]
    simp [ih ry.2 r.1 r.2 hr]

theorem classifyTwoGaussData_length (n : ℤ) (noise : ℚ) (rand : ℕ → ℚ)
    (fuel : ℕ) (l : List Example2D)
    (h : classifyTwoGaussData n noise rand fuel = some l) :
    l.length = 2 * jsLoopCount ((n : ℚ) / 2) := by
  simp only [classifyTwoGaussData, Option.bind_eq_some, Option.map_eq_some'] at h
  obtain ⟨r1, h1, r2, h2, hl⟩ := h
  rw [← hl, List.length_append,
    genGauss_length _ _ _ _ _ _ _ _ _ _ h1, genGauss_length _ _ _ _ _ _ _ _ _ _ h2]
  ring

/-! ## Claims -/

/-- **C1.** The claim states that `normalRandom`'s rejection loop accepts a
pair only when `0 < s ≤ 1`, so that `s = 0` never reaches the logarithm.  The
code's `do … while (s > 1)` accepts every `s ≤ 1`, including `s = 0`: when
`Math.random()` returns `0.5` twice, `v1 = v2 = 0` and the pair is accepted
with `s = 0`, for which `0 < s` fails — `Math.log(0) / 0` is then evaluated.
The guard described by the claim (and required by the spec) is absent from
the code. -/
theorem claim_C1_zero_s_accepted :
    polarAccept (fun _ => 1 / 2) 0 1 = some (0, 0, 2) ∧ ¬(0 < (0 : ℚ)) := by
  constructor
  · simp only [polarAccept]
    norm_num
  · decide

/-- **C2, counterexample.** At `numSamples = 1` the spiral generator returns
2 examples, not `2 * floor(1 / 2) = 0` as claimed: the loop bound
`numSamples / 2` is real division, so each arm emits `ceil(1 / 2) = 1`
point. -/
theorem claim_C2_counterexample :
    (classifySpiralData 1 0 (fun _ => 0)).length = 2 ∧ (2 : ℕ) ≠ 2 * (1 / 2) := by
  constructor
  · rw [classifySpiralData_length]
    have h1 : Int.ceil ((1 : ℚ) / 2) = 1 := by
      rw [Int.ceil_eq_iff]
      norm_num
    norm_num [jsLoopCount, h1]
  · decide

/-- **C2, amended.** For every integer `numSamples` and every noise, each of
`classifyTwoGaussData`, `classifySpiralData` and `classifyCircleData` returns
exactly `2 * ceil(numSamples / 2)` labeled examples (so an odd `numSamples`
gains an extra example per half, the loop bound `numSamples / 2` being real
division); for `classifyTwoGaussData` this is the length of the returned list
whenever the rejection sampling terminates within the given fuel. -/
theorem claim_C2_lengths (n : ℤ) (noise : ℚ) (rand : ℕ → ℚ) (fuel : ℕ) :
    (classifySpiralData n noise rand).length = 2 * (Int.ceil ((n : ℚ) / 2)).toNat ∧
    (classifyCircleData n noise rand).length = 2 * (Int.ceil ((n : ℚ) / 2)).toNat ∧
    (classifyTwoGaussData n noise rand fuel).map List.length
      = (classifyTwoGaussData n noise rand fuel).map
          (fun _ => 2 * (Int.ceil ((n : ℚ) / 2)).toNat) := by
  refine ⟨classifySpiralData_length n noise rand, classifyCircleData_length n noise rand, ?_⟩
  cases h : classifyTwoGaussData n noise rand fuel with
  | none => rfl
  | some l => simp [classifyTwoGaussData_length n noise rand fuel l h, jsLoopCount]

/-! ## Label lemmas -/

/-- The classification-label invariant: a label is exactly `-1` or `+1`. -/
def IsClassLabel (e : Example2D) : Prop := e.label = 1 ∨ e.label = -1

theorem genGauss_labels (rand : ℕ → ℚ) (variance cx cy lab : ℝ) (fuel : ℕ) :
    ∀ (c k : ℕ) (l : List Example2D) (k' : ℕ),
      genGauss rand variance cx cy lab fuel c k = some (l, k') →
        List.Forall (fun e => e.label = lab) l := by
  intro c
  induction c with
  | zero =>
    intro k l k' h
    simp only [genGauss, Option.some.injEq, Prod.mk.injEq] at h
    rw [← h.1]
    simp
  | succ c ih =>
    intro k l k' h
    simp only [genGauss, Option.bind_eq_some, Option.map_eq_some'] at h
    obtain ⟨rx, hx, ry, hy, r, hr, hfr⟩ := h
    obtain ⟨h1, -⟩ := Prod.mk.injEq .. ▸ hfr
    rw [← h1, List.forall_cons]
    exact ⟨rfl, ih ry.2 r.1 r.2 hr⟩

theorem genSpiral_labels (n noise : ℚ) (rand : ℕ → ℚ) (k0 : ℕ)
    (deltaT lab : ℝ) :
    List.Forall (fun e => e.label = lab) (genSpiral n noise rand k0 deltaT lab) := by
  rw [List.forall_iff_forall_mem]
  intro e he
  simp only [genSpiral, List.mem_map] at he
  obtain ⟨i, -, rfl⟩ := he
  rfl

theorem getCircleLabel_cases (radius : ℝ) (p center : Point) :
    getCircleLabel radius p center = 1 ∨ getCircleLabel radius p center = -1 := by
  unfold getCircleLabel
  split
  · exact Or.inl rfl
  · exact Or.inr rfl

theorem getXORLabel_cases (p : Point) : getXORLabel p = 1 ∨ getXORLabel p = -1 := by
  unfold getXORLabel
  split
  · exact Or.inl rfl
  · exact Or.inr rfl

theorem circlePoints_labels (radius : ℝ) (noise : ℚ) (rand : ℕ → ℚ)
    (k0 c : ℕ) (rlo rhi : ℝ) :
    List.Forall IsClassLabel (circlePoints radius noise rand k0 c rlo rhi) := by
  rw [List.forall_iff_forall_mem]
  intro e he
  simp only [circlePoints, List.mem_map] at he
  obtain ⟨i, -, rfl⟩ := he
  exact getCircleLabel_cases _ _ _

theorem classifyXORData_labels (n : ℤ) (noise : ℚ) (rand : ℕ → ℚ) :
    List.Forall IsClassLabel (classifyXORData n noise rand) := by
  rw [List.forall_iff_forall_mem]
  intro e he
  simp only [classifyXORData, List.mem_map] at he
  obtain ⟨i, -, rfl⟩ := he
  exact getXORLabel_cases _

theorem makeLinesAux_labels (noise : ℚ) (randRadius : ℝ) (rand : ℕ → ℚ)
    (total : ℚ) (n : ℤ) :
    ∀ (props : List PropertyForLines) (k : ℕ),
      List.Forall (fun p => IsClassLabel ⟨0, 0, p.label⟩) props →
        List.Forall IsClassLabel (makeLinesAux noise randRadius rand total n props k) := by
  intro props
  induction props with
  | nil => intro k _; simp [makeLinesAux]
  | cons p rest ih =>
    intro k hp
    rw [List.forall_cons] at hp
    rw [makeLinesAux, List.forall_iff_forall_mem]
    intro e he
    rw [List.mem_append] at he
    rcases he with he | he
    · simp only [linePoints, List.mem_map] at he
      obtain ⟨j, -, rfl⟩ := he
      exact hp.1
    · exact (List.forall_iff_forall_mem.mp (ih _ hp.2)) e he

theorem classifyTwoGaussData_labels (n : ℤ) (noise : ℚ) (rand : ℕ → ℚ)
    (fuel : ℕ) (l : List Example2D)
    (h : classifyTwoGaussData n noise rand fuel = some l) :
    List.Forall IsClassLabel l := by
  simp only [classifyTwoGaussData, Option.bind_eq_some, Option.map_eq_some'] at h
  obtain ⟨r1, h1, r2, h2, hl⟩ := h
  rw [← hl, List.forall_iff_forall_mem]
  intro e he
  rw [List.mem_append] at he
  rcases he with he | he
  · exact Or.inl ((List.forall_iff_forall_mem.mp
      (genGauss_labels _ _ _ _ _ _ _ _ _ _ h1)) e he)
  · exact Or.inr ((List.forall_iff_forall_mem.mp
      (genGauss_labels _ _ _ _ _ _ _ _ _ _ h2)) e he)

theorem classifySpiralData_labels (n : ℤ) (noise : ℚ) (rand : ℕ → ℚ) :
    List.Forall IsClassLabel (classifySpiralData n noise rand) := by
  rw [classifySpiralData, List.forall_iff_forall_mem]
  intro e he
  rw [List.mem_append] at he
  rcases he with he | he
  · exact Or.inl ((List.forall_iff_forall_mem.mp (genSpiral_labels _ _ _ _ _ _)) e he)
  · exact Or.inr ((List.forall_iff_forall_mem.mp (genSpiral_labels _ _ _ _ _ _)) e he)

theorem classifyCircleData_labels (n : ℤ) (noise : ℚ) (rand : ℕ → ℚ) :
    List.Forall IsClassLabel (classifyCircleData n noise rand) := by
  rw [classifyCircleData, List.forall_iff_forall_mem]
  intro e he
  rw [List.mem_append] at he
  rcases he with he | he
  · exact (List.forall_iff_forall_mem.mp (circlePoints_labels _ _ _ _ _ _ _)) e he
  · exact (List.forall_iff_forall_mem.mp (circlePoints_labels _ _ _ _ _ _ _)) e he

/-- **C3.** Every example emitted by any of the six classification generators
has label exactly `-1` or `+1` (for `classifyTwoGaussData`, whenever the
rejection sampling terminates within the given fuel). -/
theorem claim_C3_labels_pm_one (n : ℤ) (noise : ℚ) (rand : ℕ → ℚ) (fuel : ℕ) :
    (classifyTwoGaussData n noise rand fuel).elim True (List.Forall IsClassLabel) ∧
    List.Forall IsClassLabel (classifySpiralData n noise rand) ∧
    List.Forall IsClassLabel (classifyCircleData n noise rand) ∧
    List.Forall IsClassLabel (classifyXORData n noise rand) ∧
    List.Forall IsClassLabel (classifyOxtuData n noise rand) ∧
    List.Forall IsClassLabel (classifyJavaData n noise rand) := by
  refine ⟨?_, classifySpiralData_labels n noise rand, classifyCircleData_labels n noise rand,
    classifyXORData_labels n noise rand, ?_, ?_⟩
  · cases h : classifyTwoGaussData n noise rand fuel with
    | none => trivial
    | some l => exact classifyTwoGaussData_labels n noise rand fuel l h
  · refine makeLinesAux_labels _ _ _ _ _ _ _ ?_
    norm_num [oxtuProps, IsClassLabel]
  · refine makeLinesAux_labels _ _ _ _ _ _ _ ?_
    norm_num [javaProps, IsClassLabel]

/-! ## The line generator's quotas (C4) -/

theorem linePoints_length (noise : ℚ) (randRadius : ℝ) (rand : ℕ → ℚ)
    (p : PropertyForLines) (k0 num : ℕ) :
    (linePoints noise randRadius rand p k0 num).length = num := by
  simp [linePoints]

theorem makeLinesAux_length (noise : ℚ) (randRadius : ℝ) (rand : ℕ → ℚ)
    (total : ℚ) (n : ℤ) :
    ∀ (props : List PropertyForLines) (k : ℕ),
      (makeLinesAux noise randRadius rand total n props k).length
        = (props.map (lineQuota total n)).sum := by
  intro props
  induction props with
  | nil => intro k; simp [makeLinesAux]
  | cons p rest ih => intro k; simp [makeLinesAux, linePoints_length, ih]

theorem linePoints_label_map (noise : ℚ) (randRadius : ℝ) (rand : ℕ → ℚ)
    (p : PropertyForLines) (k0 num : ℕ) :
    (linePoints noise randRadius rand p k0 num).map Example2D.label
      = List.replicate num p.label := by
  simp only [linePoints, List.map_map]
  have : (Example2D.label ∘ fun (j : ℕ) =>
      (⟨(randOnLine (rand (k0 + 3 * j)) p.p0 p.p1).x +
          randUniform (rand (k0 + 3 * j + 1)) (-randRadius) randRadius * (noise : ℚ),
        (randOnLine (rand (k0 + 3 * j)) p.p0 p.p1).y +
          randUniform (rand (k0 + 3 * j + 2)) (-randRadius) randRadius * (noise : ℚ),
        p.label⟩ : Example2D)) = fun _ => p.label := rfl
  rw [this, List.map_const', List.length_range]

theorem makeLinesAux_label_map (noise : ℚ) (randRadius : ℝ) (rand : ℕ → ℚ)
    (total : ℚ) (n : ℤ) :
    ∀ (props : List PropertyForLines) (k : ℕ),
      (makeLinesAux noise randRadius rand total n props k).map Example2D.label
        = props.flatMap (fun p => List.replicate (lineQuota total n p) p.label) := by
  intro props
  induction props with
  | nil => intro k; simp [makeLinesAux]
  | cons p rest ih =>
    intro k
    simp only [makeLinesAux, List.map_append, List.flatMap_cons, linePoints_label_map, ih]

/-- **C4.** For a non-negative `numSamples` and a descriptor list with
non-negative weights and positive total weight, `makeClassifyDataWithLines`
returns exactly `sum_i floor(ratio_i / totalRatio * numSamples)` examples,
and the emitted labels are the descriptors' labels, grouped by descriptor in
input-list order with `floor(ratio_i / totalRatio * numSamples)` points
each. -/
theorem claim_C4_line_quotas (n : ℤ) (noise : ℚ) (rand : ℕ → ℚ)
    (props : List PropertyForLines) (randRadius : ℝ)
    (h0 : 0 ≤ n) (hr : List.Forall (fun p => 0 ≤ p.ratio) props)
    (ht : 0 < sumOfRatio props) :
    ((makeClassifyDataWithLines n noise props randRadius rand).length : ℤ)
      = (props.map (fun p => Int.floor (p.ratio / sumOfRatio props * (n : ℚ)))).sum ∧
    (makeClassifyDataWithLines n noise props randRadius rand).map Example2D.label
      = props.flatMap
          (fun p => List.replicate (lineQuota (sumOfRatio props) n p) p.label) := by
  constructor
  · rw [makeClassifyDataWithLines, makeLinesAux_length]
    rw [List.forall_iff_forall_mem] at hr
    have key : ∀ (l : List PropertyForLines),
        (∀ p ∈ l, (0 : ℤ) ≤ Int.floor (p.ratio / sumOfRatio props * (n : ℚ))) →
        ((l.map (lineQuota (sumOfRatio props) n)).sum : ℤ)
          = (l.map (fun p => Int.floor (p.ratio / sumOfRatio props * (n : ℚ)))).sum := by
      intro l
      induction l with
      | nil => intro _; simp
      | cons p rest ih =>
        intro hl
        simp only [List.map_cons, List.sum_cons, Nat.cast_add]
        rw [ih (fun q hq => hl q (List.mem_cons_of_mem p hq)), lineQuota,
          Int.toNat_of_nonneg (hl p (List.mem_cons_self p rest))]
    refine key props (fun p hp => Int.floor_nonneg.mpr ?_)
    exact mul_nonneg (div_nonneg (hr p hp) ht.le) (by exact_mod_cast h0)
  · rw [makeClassifyDataWithLines, makeLinesAux_label_map]

/-- A two-descriptor list with weights 1 and 3, the literal example of the
spec (§8). -/
noncomputable def ratioOneThreeProps : List PropertyForLines :=
  [⟨1, 1, ⟨0, 0⟩, ⟨1, 0⟩⟩, ⟨-1, 3, ⟨0, 1⟩, ⟨1, 1⟩⟩]

/-- Witness for C4: with weights `{1, 3}` and `numSamples = 100` the line
generator emits exactly `25 + 75 = 100` points. -/
theorem claim_C4_line_quotas_witness :
    (0 : ℤ) ≤ 100 ∧ List.Forall (fun p => 0 ≤ p.ratio) ratioOneThreeProps ∧
      0 < sumOfRatio ratioOneThreeProps ∧
      ((makeClassifyDataWithLines 100 0 ratioOneThreeProps 3 (fun _ => 0)).length : ℤ)
        = 25 + 75 := by
  have hf : List.Forall (fun p => 0 ≤ p.ratio) ratioOneThreeProps := by
    norm_num [ratioOneThreeProps, List.forall_cons]
  have hs : 0 < sumOfRatio ratioOneThreeProps := by
    norm_num [sumOfRatio, ratioOneThreeProps]
  refine ⟨by decide, hf, hs, ?_⟩
  rw [(claim_C4_line_quotas 100 0 (fun _ => 0) ratioOneThreeProps 3 (by decide) hf hs).1]
  norm_num [ratioOneThreeProps, sumOfRatio]

/-! ## Non-positive sample counts (C9) -/

theorem jsLoopCount_eq_zero {b : ℚ} (hb : b ≤ 0) : jsLoopCount b = 0 := by
  rw [jsLoopCount, Int.toNat_eq_zero, Int.ceil_le]
  exact_mod_cast hb

theorem makeLinesAux_eq_nil (noise : ℚ) (randRadius : ℝ) (rand : ℕ → ℚ)
    (total : ℚ) (n : ℤ) (hn : n ≤ 0) (htot : 0 < total) :
    ∀ (props : List PropertyForLines) (k : ℕ),
      List.Forall (fun p => 0 ≤ p.ratio) props →
        makeLinesAux noise randRadius rand total n props k = [] := by
  intro props
  induction props with
  | nil => intro k _; rw [makeLinesAux]
  | cons p rest ih =>
    intro k hp
    rw [List.forall_cons] at hp
    have hq : lineQuota total n p = 0 := by
      rw [lineQuota, Int.toNat_eq_zero]
      apply Int.floor_nonpos
      apply mul_nonpos_of_nonneg_of_nonpos (div_nonneg hp.1 htot.le)
      exact_mod_cast hn
    rw [makeLinesAux, hq, ih (k + 3 * 0) hp.2]
    simp [linePoints]

/-- **C9.** For every `numSamples ≤ 0` (negative included) and every noise,
each exported generator returns the empty sequence (for
`classifyTwoGaussData`, `some []`: the sampler is never invoked). -/
theorem claim_C9_empty_for_nonpos (n : ℤ) (noise : ℚ) (rand : ℕ → ℚ)
    (fuel : ℕ) (hn : n ≤ 0) :
    classifyTwoGaussData n noise rand fuel = some [] ∧
    classifySpiralData n noise rand = [] ∧
    classifyCircleData n noise rand = [] ∧
    classifyXORData n noise rand = [] ∧
    classifyOxtuData n noise rand = [] ∧
    classifyJavaData n noise rand = [] ∧
    regressPlane n noise rand = [] ∧
    regressGaussian n noise rand = [] := by
  have hn2 : ((n : ℚ) / 2) ≤ 0 := by
    apply div_nonpos_of_nonpos_of_nonneg _ (by norm_num)
    exact_mod_cast hn
  have hn1 : ((n : ℚ)) ≤ 0 := by exact_mod_cast hn
  have hc2 := jsLoopCount_eq_zero hn2
  have hc1 := jsLoopCount_eq_zero hn1
  refine ⟨?_, ?_, ?_, ?_, ?_, ?_, ?_, ?_⟩
  · rw [classifyTwoGaussData]
    simp only [hc2, genGauss]
    rfl
  · rw [classifySpiralData]
    simp [genSpiral, hc2]
  · rw [classifyCircleData]
    simp [circlePoints, hc2]
  · rw [classifyXORData, hc1]
    rfl
  · rw [classifyOxtuData, makeClassifyDataWithLines]
    apply makeLinesAux_eq_nil _ _ _ _ _ hn
    · norm_num [sumOfRatio, oxtuProps]
    · norm_num [oxtuProps, List.forall_cons]
  · rw [classifyJavaData, makeClassifyDataWithLines]
    apply makeLinesAux_eq_nil _ _ _ _ _ hn
    · norm_num [sumOfRatio, javaProps]
    · norm_num [javaProps, List.forall_cons]
  · rw [regressPlane, hc1]
    rfl
  · rw [regressGaussian, hc1]
    rfl

/-- Witness for C9 at `numSamples = -3`. -/
theorem claim_C9_empty_for_nonpos_witness :
    (-3 : ℤ) ≤ 0 ∧
      (classifyTwoGaussData (-3) 0 (fun _ => 0) 5 = some [] ∧
       classifySpiralData (-3) 0 (fun _ => 0) = [] ∧
       classifyCircleData (-3) 0 (fun _ => 0) = [] ∧
       classifyXORData (-3) 0 (fun _ => 0) = [] ∧
       classifyOxtuData (-3) 0 (fun _ => 0) = [] ∧
       classifyJavaData (-3) 0 (fun _ => 0) = [] ∧
       regressPlane (-3) 0 (fun _ => 0) = [] ∧
       regressGaussian (-3) 0 (fun _ => 0) = []) :=
  ⟨by decide, claim_C9_empty_for_nonpos (-3) 0 (fun _ => 0) 5 (by decide)⟩

/-! ## `shuffle` is a permutation (C5) -/

theorem get_cons_set_perm :
    ∀ (t : List α) (m : ℕ) (h : m < t.length) (x : α),
      List.Perm (t.get ⟨m, h⟩ :: t.set m x) (x :: t) := by
  intro t
  induction t with
  | nil => intro m h x; simp at h
  | cons y t ih =>
    intro m h x
    cases m with
    | zero => exact List.Perm.swap x y t
    | succ m =>
      have hm : m < t.length := by simpa using h
      refine List.Perm.trans (List.Perm.swap y (t.get ⟨m, hm⟩) (t.set m x)) ?_
      exact List.Perm.trans ((ih m hm x).cons y) (List.Perm.swap x y t)

theorem set_set_swap_perm :
    ∀ (l : List α) (i j : ℕ) (hi : i < l.length) (hj : j < l.length),
      List.Perm ((l.set i (l.get ⟨j, hj⟩)).set j (l.get ⟨i, hi⟩)) l := by
  intro l
  induction l with
  | nil => intro i j hi _; simp at hi
  | cons x t ih =>
    intro i j hi hj
    cases i with
    | zero =>
      cases j with
      | zero => exact List.Perm.refl _
      | succ m =>
        have hm : m < t.length := by simpa using hj
        exact get_cons_set_perm t m hm x
    | succ m =>
      cases j with
      | zero =>
        have hm : m < t.length := by simpa using hi
        exact get_cons_set_perm t m hm x
      | succ m' =>
        have hm : m < t.length := by simpa using hi
        have hm' : m' < t.length := by simpa using hj
        exact (ih m m' hm hm').cons x

theorem swapAt_perm (l : List α) (i j : ℕ) : List.Perm (swapAt l i j) l := by
  rw [swapAt]
  split
  · exact set_set_swap_perm l i j _ _
  · exact List.Perm.refl l

theorem shuffleAux_perm (rand : ℕ → ℚ) :
    ∀ (c : ℕ) (l : List α) (k : ℕ), c ≤ l.length →
      List.Perm (shuffleAux rand l k c) l := by
  intro c
  induction c with
  | zero => intro l k _; exact List.Perm.refl l
  | succ c ih =>
    intro l k hc
    rw [shuffleAux]
    have hswap := swapAt_perm l c (Int.floor (rand k * (c + 1 : ℚ))).toNat
    have hlen : (swapAt l c (Int.floor (rand k * (c + 1 : ℚ))).toNat).length = l.length :=
      hswap.length_eq
    exact (ih _ (k + 1) (by omega)).trans hswap

theorem shuffle_singleton (rand : ℕ → ℚ) (h0 : 0 ≤ rand 0) (h1 : rand 0 < 1)
    (a : α) : shuffle rand [a] = [a] := by
  have hf : Int.floor (rand 0 * ((0 : ℕ) + 1 : ℚ)) = 0 := by
    rw [Int.floor_eq_zero_iff]
    constructor
    · simpa using h0
    · simpa using h1
  rw [shuffle]
  show shuffleAux rand [a] 0 1 = [a]
  rw [shuffleAux, hf]
  rfl

/-- **C5.** For every array and every sequence of draws from `[0, 1)`,
`shuffle` returns a permutation of the array: the length and the multiset of
elements are unchanged, and empty and single-element arrays come back
identical. -/
theorem claim_C5_shuffle_perm (l : List α) (rand : ℕ → ℚ)
    (hr : ∀ m, 0 ≤ rand m ∧ rand m < 1) :
    List.Perm (shuffle rand l) l ∧
    (shuffle rand l).length = l.length ∧
    ((shuffle rand l : List α) : Multiset α) = (l : Multiset α) ∧
    shuffle rand ([] : List α) = [] ∧
    (∀ a : α, shuffle rand [a] = [a]) := by
  have hp : List.Perm (shuffle rand l) l :=
    shuffleAux_perm rand l.length l 0 le_rfl
  exact ⟨hp, hp.length_eq, Multiset.coe_eq_coe.mpr hp, rfl,
    fun a => shuffle_singleton rand (hr 0).1 (hr 0).2 a⟩

/-- Witness for C5: the all-zero draw stream on `[1, 2, 3]`. -/
theorem claim_C5_shuffle_perm_witness :
    List.Perm (shuffle (fun _ => (0 : ℚ)) [1, 2, 3]) [1, 2, 3] ∧
      shuffle (fun _ => (0 : ℚ)) ([] : List ℕ) = [] ∧
      shuffle (fun _ => (0 : ℚ)) [7] = [7] := by
  have h := claim_C5_shuffle_perm ([1, 2, 3] : List ℕ) (fun _ => 0)
    (fun _ => ⟨le_refl 0, by norm_num⟩)
  exact ⟨h.1, h.2.2.2.1, h.2.2.2.2 7⟩

/-! ## Deterministic labels at `noise = 0` (C6) -/

/-- **C6.** With `noise = 0`: every XOR example's label is `+1` exactly when
`x * y ≥ 0` (ties to `+1`) on the emitted point; every circle example's label
is `+1` exactly when the emitted point's distance to the origin is below
`2.5 = 0.5 * radius`; every point of the `deltaT = 0` spiral arm carries
label `+1` and every point of the `deltaT = π` arm label `-1`, the output
being the two arms in that order. -/
theorem claim_C6_noise_zero_labels (n : ℤ) (rand : ℕ → ℚ) :
    List.Forall (fun e => e.label = if e.x * e.y ≥ 0 then (1 : ℝ) else -1)
      (classifyXORData n 0 rand) ∧
    List.Forall (fun e => e.label = if dist ⟨e.x, e.y⟩ ⟨0, 0⟩ < 2.5 then (1 : ℝ) else -1)
      (classifyCircleData n 0 rand) ∧
    List.Forall (fun e => e.label = 1) (genSpiral ((n : ℚ) / 2) 0 rand 0 0 1) ∧
    List.Forall (fun e => e.label = -1)
      (genSpiral ((n : ℚ) / 2) 0 rand (2 * jsLoopCount ((n : ℚ) / 2)) Real.pi (-1)) ∧
    classifySpiralData n 0 rand
      = genSpiral ((n : ℚ) / 2) 0 rand 0 0 1 ++
          genSpiral ((n : ℚ) / 2) 0 rand (2 * jsLoopCount ((n : ℚ) / 2)) Real.pi (-1) := by
  refine ⟨?_, ?_, genSpiral_labels _ _ _ _ _ _, genSpiral_labels _ _ _ _ _ _, rfl⟩
  · rw [List.forall_iff_forall_mem]
    intro e he
    simp only [classifyXORData, List.mem_map] at he
    obtain ⟨i, -, rfl⟩ := he
    simp only [Rat.cast_zero, mul_zero, add_zero]
    rfl
  · rw [List.forall_iff_forall_mem]
    intro e he
    rw [classifyCircleData, List.mem_append] at he
    have key : ∀ (k0 : ℕ) (rlo rhi : ℝ),
        e ∈ circlePoints 5 0 rand k0 (jsLoopCount ((n : ℚ) / 2)) rlo rhi →
          e.label = if dist ⟨e.x, e.y⟩ ⟨0, 0⟩ < 2.5 then (1 : ℝ) else -1 := by
      intro k0 rlo rhi hm
      simp only [circlePoints, List.mem_map] at hm
      obtain ⟨i, -, rfl⟩ := hm
      simp only [Rat.cast_zero, mul_zero, add_zero]
      show getCircleLabel 5 _ _ = _
      rw [getCircleLabel]
      norm_num
    rcases he with he | he
    · exact key _ _ _ he
    · exact key _ _ _ he

/-! ## `regressPlane` labels (C7) -/

theorem linearScale_plane (v : ℝ) : linearScale (-10) 10 (-1) 1 v = v / 10 := by
  rw [linearScale]
  ring

/-- **C7.** Every example of `regressPlane` has label
`((x + noiseX) + (y + noiseY)) / 10` — the unclamped `[-10, 10] → [-1, 1]`
linear map of the noisy coordinate sum — while the emitted coordinates are the
pre-noise draws; and with `noise = 0` a point sampled at `(5, 5)` gets label
exactly `1`. -/
theorem claim_C7_plane_labels (n : ℤ) (noise : ℚ) (rand : ℕ → ℚ) :
    regressPlane n noise rand
      = (List.range (jsLoopCount (n : ℚ))).map (fun (i : ℕ) =>
          let x := randUniform (rand (4 * i)) (-6) 6
          let y := randUniform (rand (4 * i + 1)) (-6) 6
          let noiseX := randUniform (rand (4 * i + 2)) (-6) 6 * (noise : ℝ)
          let noiseY := randUniform (rand (4 * i + 3)) (-6) 6 * (noise : ℝ)
          ⟨x, y, (x + noiseX + (y + noiseY)) / 10⟩) ∧
    regressPlane 1 0 (fun k => if k ≤ 1 then 11 / 12 else 0) = [⟨5, 5, 1⟩] := by
  constructor
  · rw [regressPlane]
    apply List.map_congr_left
    intro i _
    simp only [linearScale_plane]
  · have h1 : jsLoopCount ((1 : ℤ) : ℚ) = 1 := by
      norm_num [jsLoopCount]
    rw [regressPlane, h1, show List.range 1 = [0] from rfl, List.map_cons, List.map_nil]
    norm_num [randUniform, linearScale]

/-! ## `regressGaussian` is a max-by-absolute-value reduction (C8) -/

theorem maxAbs_foldl_spec (L : List ℝ) :
    ∀ init : ℝ,
      (L.foldl (fun label newLabel => if |newLabel| > |label| then newLabel else label) init
          = init
        ∨ L.foldl (fun label newLabel => if |newLabel| > |label| then newLabel else label) init
          ∈ L)
      ∧ |init| ≤
          |L.foldl (fun label newLabel => if |newLabel| > |label| then newLabel else label) init|
      ∧ ∀ c ∈ L, |c| ≤
          |L.foldl (fun label newLabel => if |newLabel| > |label| then newLabel else label) init| := by
  induction L with
  | nil => intro init; exact ⟨Or.inl rfl, le_refl _, by simp⟩
  | cons c L ih =>
    intro init
    rw [List.foldl_cons]
    obtain ⟨h1, h2, h3⟩ := ih (if |c| > |init| then c else init)
    have hinit_le : |init| ≤ |if |c| > |init| then c else init| := by
      split
      · exact le_of_lt (by assumption)
      · exact le_refl _
    have hc_le : |c| ≤ |if |c| > |init| then c else init| := by
      split
      · exact le_refl _
      · exact le_of_not_lt (by assumption)
    refine ⟨?_, le_trans hinit_le h2, ?_⟩
    · rcases h1 with h1 | h1
      · rw [h1]
        split
        · exact Or.inr (List.mem_cons_self _ _)
        · exact Or.inl rfl
      · exact Or.inr (List.mem_cons_of_mem c h1)
    · intro d hd
      rcases List.mem_cons.mp hd with rfl | hd
      · exact le_trans hc_le h2
      · exact h3 d hd

theorem getLabelGauss_spec (x y : ℝ) :
    (getLabelGauss x y = 0 ∨ getLabelGauss x y ∈ gaussContribs x y) ∧
      List.Forall (fun c => |c| ≤ |getLabelGauss x y|) (gaussContribs x y) := by
  obtain ⟨h1, -, h3⟩ := maxAbs_foldl_spec (gaussContribs x y) 0
  exact ⟨h1, List.forall_iff_forall_mem.mpr h3⟩

theorem gaussContribution_self (x y sign : ℝ) :
    gaussContribution x y (x, y, sign) = sign := by
  rw [gaussContribution, dist]
  norm_num [linearScaleClamped, linearScale, Real.sqrt_zero]

theorem gaussContribution_far (x y : ℝ) (g : ℝ × ℝ × ℝ)
    (h : 4 ≤ (x - g.1) * (x - g.1) + (y - g.2.1) * (y - g.2.1)) :
    gaussContribution x y g = 0 := by
  have h2 : (2 : ℝ) ≤ dist ⟨x, y⟩ ⟨g.1, g.2.1⟩ := by
    rw [dist, show ((⟨x, y⟩ : Point).x - (⟨g.1, g.2.1⟩ : Point).x)
        * ((⟨x, y⟩ : Point).x - (⟨g.1, g.2.1⟩ : Point).x)
        + ((⟨x, y⟩ : Point).y - (⟨g.1, g.2.1⟩ : Point).y)
        * ((⟨x, y⟩ : Point).y - (⟨g.1, g.2.1⟩ : Point).y)
      = (x - g.1) * (x - g.1) + (y - g.2.1) * (y - g.2.1) from rfl]
    rw [Real.le_sqrt' (by norm_num)]
    nlinarith [h]
  rw [gaussContribution, linearScaleClamped,
    max_eq_left (le_trans (by norm_num) h2), min_eq_right h2, linearScale]
  norm_num

theorem getLabelGauss_center1 : getLabelGauss (-4 : ℝ) 2.5 = 1 := by
  simp only [getLabelGauss, gaussContribs, gaussians, List.map_cons, List.map_nil,
    List.foldl_cons, List.foldl_nil]
  rw [gaussContribution_self (-4 : ℝ) 2.5 1,
    gaussContribution_far (-4 : ℝ) 2.5 (0, 2.5, -1) (by norm_num),
    gaussContribution_far (-4 : ℝ) 2.5 (4, 2.5, 1) (by norm_num),
    gaussContribution_far (-4 : ℝ) 2.5 (-4, -2.5, -1) (by norm_num),
    gaussContribution_far (-4 : ℝ) 2.5 (0, -2.5, 1) (by norm_num),
    gaussContribution_far (-4 : ℝ) 2.5 (4, -2.5, -1) (by norm_num)]
  norm_num

theorem getLabelGauss_center2 : getLabelGauss (0 : ℝ) 2.5 = -1 := by
  simp only [getLabelGauss, gaussContribs, gaussians, List.map_cons, List.map_nil,
    List.foldl_cons, List.foldl_nil]
  rw [gaussContribution_self (0 : ℝ) 2.5 (-1),
    gaussContribution_far (0 : ℝ) 2.5 (-4, 2.5, 1) (by norm_num),
    gaussContribution_far (0 : ℝ) 2.5 (4, 2.5, 1) (by norm_num),
    gaussContribution_far (0 : ℝ) 2.5 (-4, -2.5, -1) (by norm_num),
    gaussContribution_far (0 : ℝ) 2.5 (0, -2.5, 1) (by norm_num),
    gaussContribution_far (0 : ℝ) 2.5 (4, -2.5, -1) (by norm_num)]
  norm_num

theorem getLabelGauss_center3 : getLabelGauss (4 : ℝ) 2.5 = 1 := by
  simp only [getLabelGauss, gaussContribs, gaussians, List.map_cons, List.map_nil,
    List.foldl_cons, List.foldl_nil]
  rw [gaussContribution_self (4 : ℝ) 2.5 1,
    gaussContribution_far (4 : ℝ) 2.5 (-4, 2.5, 1) (by norm_num),
    gaussContribution_far (4 : ℝ) 2.5 (0, 2.5, -1) (by norm_num),
    gaussContribution_far (4 : ℝ) 2.5 (-4, -2.5, -1) (by norm_num),
    gaussContribution_far (4 : ℝ) 2.5 (0, -2.5, 1) (by norm_num),
    gaussContribution_far (4 : ℝ) 2.5 (4, -2.5, -1) (by norm_num)]
  norm_num

theorem getLabelGauss_center4 : getLabelGauss (-4 : ℝ) (-2.5) = -1 := by
  simp only [getLabelGauss, gaussContribs, gaussians, List.map_cons, List.map_nil,
    List.foldl_cons, List.foldl_nil]
  rw [gaussContribution_self (-4 : ℝ) (-2.5) (-1),
    gaussContribution_far (-4 : ℝ) (-2.5) (-4, 2.5, 1) (by norm_num),
    gaussContribution_far (-4 : ℝ) (-2.5) (0, 2.5, -1) (by norm_num),
    gaussContribution_far (-4 : ℝ) (-2.5) (4, 2.5, 1) (by norm_num),
    gaussContribution_far (-4 : ℝ) (-2.5) (0, -2.5, 1) (by norm_num),
    gaussContribution_far (-4 : ℝ) (-2.5) (4, -2.5, -1) (by norm_num)]
  norm_num

theorem getLabelGauss_center5 : getLabelGauss (0 : ℝ) (-2.5) = 1 := by
  simp only [getLabelGauss, gaussContribs, gaussians, List.map_cons, List.map_nil,
    List.foldl_cons, List.foldl_nil]
  rw [gaussContribution_self (0 : ℝ) (-2.5) 1,
    gaussContribution_far (0 : ℝ) (-2.5) (-4, 2.5, 1) (by norm_num),
    gaussContribution_far (0 : ℝ) (-2.5) (0, 2.5, -1) (by norm_num),
    gaussContribution_far (0 : ℝ) (-2.5) (4, 2.5, 1) (by norm_num),
    gaussContribution_far (0 : ℝ) (-2.5) (-4, -2.5, -1) (by norm_num),
    gaussContribution_far (0 : ℝ) (-2.5) (4, -2.5, -1) (by norm_num)]
  norm_num

theorem getLabelGauss_center6 : getLabelGauss (4 : ℝ) (-2.5) = -1 := by
  simp only [getLabelGauss, gaussContribs, gaussians, List.map_cons, List.map_nil,
    List.foldl_cons, List.foldl_nil]
  rw [gaussContribution_self (4 : ℝ) (-2.5) (-1),
    gaussContribution_far (4 : ℝ) (-2.5) (-4, 2.5, 1) (by norm_num),
    gaussContribution_far (4 : ℝ) (-2.5) (0, 2.5, -1) (by norm_num),
    gaussContribution_far (4 : ℝ) (-2.5) (4, 2.5, 1) (by norm_num),
    gaussContribution_far (4 : ℝ) (-2.5) (-4, -2.5, -1) (by norm_num),
    gaussContribution_far (4 : ℝ) (-2.5) (0, -2.5, 1) (by norm_num)]
  norm_num

theorem getLabelGauss_at_centers :
    List.Forall (fun g => getLabelGauss g.1 g.2.1 = g.2.2) gaussians := by
  rw [gaussians]
  exact ⟨getLabelGauss_center1, getLabelGauss_center2, getLabelGauss_center3,
    getLabelGauss_center4, getLabelGauss_center5, getLabelGauss_center6⟩

/-- **C8.** The label of `regressGaussian` at a (noisy) position is
`getLabel`: one of the six values `sign * linearScaleClamped 0 2 1 0 (dist)`
(or `0` when all six vanish), of maximal absolute value among the six — a
max-by-absolute-value reduction — and a point exactly at one of the six
centers gets that center's sign times `1`, dominating all other centers'
terms; each emitted example carries `getLabel` of its noisy coordinates. -/
theorem claim_C8_gauss_max_abs (n : ℤ) (noise : ℚ) (rand : ℕ → ℚ) (x y : ℝ) :
    (getLabelGauss x y = 0 ∨ getLabelGauss x y ∈ gaussContribs x y) ∧
    List.Forall (fun c => |c| ≤ |getLabelGauss x y|) (gaussContribs x y) ∧
    List.Forall (fun g => getLabelGauss g.1 g.2.1 = g.2.2) gaussians ∧
    regressGaussian n noise rand
      = (List.range (jsLoopCount (n : ℚ))).map (fun (i : ℕ) =>
          let xc := randUniform (rand (4 * i)) (-6) 6
          let yc := randUniform (rand (4 * i + 1)) (-6) 6
          let noiseX := randUniform (rand (4 * i + 2)) (-6) 6 * (noise : ℝ)
          let noiseY := randUniform (rand (4 * i + 3)) (-6) 6 * (noise : ℝ)
          ⟨xc, yc, getLabelGauss (xc + noiseX) (yc + noiseY)⟩) :=
  ⟨(getLabelGauss_spec x y).1, (getLabelGauss_spec x y).2, getLabelGauss_at_centers, rfl⟩

/-! ## Noise draws only influence labels (C10) -/

/-- Agreement of two draw streams on the coordinate draws (positions `4i` and
`4i + 1` of each iteration's four draws). -/
def CoordDrawsAgree (s t : ℕ → ℚ) : Prop :=
  ∀ i, s (4 * i) = t (4 * i) ∧ s (4 * i + 1) = t (4 * i + 1)

theorem regressPlane_coords (n : ℤ) (noise : ℚ) (s : ℕ → ℚ) :
    (regressPlane n noise s).map (fun e => (e.x, e.y))
      = (List.range (jsLoopCount (n : ℚ))).map (fun (i : ℕ) =>
          (randUniform (s (4 * i)) (-6) 6, randUniform (s (4 * i + 1)) (-6) 6)) := by
  simp only [regressPlane, List.map_map]
  rfl

theorem regressGaussian_coords (n : ℤ) (noise : ℚ) (s : ℕ → ℚ) :
    (regressGaussian n noise s).map (fun e => (e.x, e.y))
      = (List.range (jsLoopCount (n : ℚ))).map (fun (i : ℕ) =>
          (randUniform (s (4 * i)) (-6) 6, randUniform (s (4 * i + 1)) (-6) 6)) := by
  simp only [regressGaussian, List.map_map]
  rfl

theorem classifyXORData_coords (n : ℤ) (noise : ℚ) (s : ℕ → ℚ) :
    (classifyXORData n noise s).map (fun e => (e.x, e.y))
      = (List.range (jsLoopCount (n : ℚ))).map (fun (i : ℕ) =>
          (randUniform (s (4 * i)) (-5) 5
              + (if randUniform (s (4 * i)) (-5) 5 > 0 then (0.3 : ℝ) else -0.3),
           randUniform (s (4 * i + 1)) (-5) 5
              + (if randUniform (s (4 * i + 1)) (-5) 5 > 0 then (0.3 : ℝ) else -0.3))) := by
  simp only [classifyXORData, List.map_map]
  rfl

theorem circlePoints_coords (radius : ℝ) (noise : ℚ) (s : ℕ → ℚ)
    (k0 c : ℕ) (rlo rhi : ℝ) :
    (circlePoints radius noise s k0 c rlo rhi).map (fun e => (e.x, e.y))
      = (List.range c).map (fun (i : ℕ) =>
          (randUniform (s (k0 + 4 * i)) rlo rhi
              * Real.sin (randUniform (s (k0 + 4 * i + 1)) 0 (2 * Real.pi)),
           randUniform (s (k0 + 4 * i)) rlo rhi
              * Real.cos (randUniform (s (k0 + 4 * i + 1)) 0 (2 * Real.pi)))) := by
  simp only [circlePoints, List.map_map]
  rfl

theorem classifyCircleData_coords (n : ℤ) (noise : ℚ) (s : ℕ → ℚ) :
    (classifyCircleData n noise s).map (fun e => (e.x, e.y))
      = ((List.range (jsLoopCount ((n : ℚ) / 2))).map (fun (i : ℕ) =>
          (randUniform (s (4 * i)) 0 (5 * 0.5)
              * Real.sin (randUniform (s (4 * i + 1)) 0 (2 * Real.pi)),
           randUniform (s (4 * i)) 0 (5 * 0.5)
              * Real.cos (randUniform (s (4 * i + 1)) 0 (2 * Real.pi))))) ++
        ((List.range (jsLoopCount ((n : ℚ) / 2))).map (fun (i : ℕ) =>
          (randUniform (s (4 * (jsLoopCount ((n : ℚ) / 2) + i))) (5 * 0.7) 5
              * Real.sin (randUniform (s (4 * (jsLoopCount ((n : ℚ) / 2) + i) + 1)) 0 (2 * Real.pi)),
           randUniform (s (4 * (jsLoopCount ((n : ℚ) / 2) + i))) (5 * 0.7) 5
              * Real.cos (randUniform (s (4 * (jsLoopCount ((n : ℚ) / 2) + i) + 1)) 0 (2 * Real.pi))))) := by
  rw [classifyCircleData]
  rw [List.map_append, circlePoints_coords, circlePoints_coords]
  congr 1
  · apply List.map_congr_left
    intro i _
    rw [show 0 + 4 * i = 4 * i from by ring]
  · apply List.map_congr_left
    intro i _
    rw [show 4 * jsLoopCount ((n : ℚ) / 2) + 4 * i
        = 4 * (jsLoopCount ((n : ℚ) / 2) + i) from by ring]

/-- **C10.** In `classifyCircleData`, `classifyXORData`, `regressPlane` and
`regressGaussian`, the emitted coordinates are the pre-noise sampled (for
XOR, padded) values — each iteration's third and fourth draws (the noise
draws) only influence the label — so two runs whose streams agree on the
coordinate draws emit examples with identical coordinates. -/
theorem claim_C10_coords_ignore_noise_draws (n : ℤ) (noise : ℚ) (s t : ℕ → ℚ)
    (h : CoordDrawsAgree s t) :
    (classifyCircleData n noise s).map (fun e => (e.x, e.y))
      = (classifyCircleData n noise t).map (fun e => (e.x, e.y)) ∧
    (classifyXORData n noise s).map (fun e => (e.x, e.y))
      = (classifyXORData n noise t).map (fun e => (e.x, e.y)) ∧
    (regressPlane n noise s).map (fun e => (e.x, e.y))
      = (regressPlane n noise t).map (fun e => (e.x, e.y)) ∧
    (regressGaussian n noise s).map (fun e => (e.x, e.y))
      = (regressGaussian n noise t).map (fun e => (e.x, e.y)) ∧
    (classifyXORData n noise s).map (fun e => (e.x, e.y))
      = (List.range (jsLoopCount (n : ℚ))).map (fun (i : ℕ) =>
          (randUniform (s (4 * i)) (-5) 5
              + (if randUniform (s (4 * i)) (-5) 5 > 0 then (0.3 : ℝ) else -0.3),
           randUniform (s (4 * i + 1)) (-5) 5
              + (if randUniform (s (4 * i + 1)) (-5) 5 > 0 then (0.3 : ℝ) else -0.3))) ∧
    (regressPlane n noise s).map (fun e => (e.x, e.y))
      = (List.range (jsLoopCount (n : ℚ))).map (fun (i : ℕ) =>
          (randUniform (s (4 * i)) (-6) 6, randUniform (s (4 * i + 1)) (-6) 6)) := by
  refine ⟨?_, ?_, ?_, ?_, classifyXORData_coords n noise s, regressPlane_coords n noise s⟩
  · rw [classifyCircleData_coords, classifyCircleData_coords]
    congr 1
    · apply List.map_congr_left
      intro i _
      rw [(h i).1, (h i).2]
    · apply List.map_congr_left
      intro i _
      rw [(h (jsLoopCount ((n : ℚ) / 2) + i)).1, (h (jsLoopCount ((n : ℚ) / 2) + i)).2]
  · rw [classifyXORData_coords, classifyXORData_coords]
    apply List.map_congr_left
    intro i _
    rw [(h i).1, (h i).2]
  · rw [regressPlane_coords, regressPlane_coords]
    apply List.map_congr_left
    intro i _
    rw [(h i).1, (h i).2]
  · rw [regressGaussian_coords, regressGaussian_coords]
    apply List.map_congr_left
    intro i _
    rw [(h i).1, (h i).2]

/-- Witness for C10: two concrete streams equal on the coordinate draws and
different on the noise draws produce identical XOR coordinates. -/
theorem claim_C10_coords_ignore_noise_draws_witness :
    (classifyXORData 3 1 (fun k => if k % 4 ≤ 1 then 1 / 3 else 0)).map (fun e => (e.x, e.y))
      = (classifyXORData 3 1 (fun k => if k % 4 ≤ 1 then 1 / 3 else 7 / 8)).map
          (fun e => (e.x, e.y)) := by
  refine (claim_C10_coords_ignore_noise_draws 3 1 _ _ ?_).2.1
  intro i
  constructor
  · have h4 : (4 * i) % 4 = 0 := by omega
    simp [h4]
  · have h4 : (4 * i + 1) % 4 = 1 := by omega
    simp [h4]

end Dataset
